import Mathlib

/-!
# Verification of the conduwuit record codec and column-family tuning layer

A shallow embedding of the key/value record decoder (`src/database/de.rs`),
the column-family option and cache-provisioning engine
(`src/database/engine/cf_opts.rs`), and the appservice registration data
accessor (`src/service/appservice/data.rs`), together with theorems checking
the natural-language specification against the code.

Conventions of the embedding:
* bytes are `Nat` values below 256; buffers are `List Nat`;
* machine integers (`usize`, `u64`) are `Nat` with explicit bounds where
  overflow matters (`USIZE_MAX`); `i64`/`i32` are `Int`;
* fallible operations return `Except`; panics (`expect`, `unimplemented`)
  that abort the process are modelled as distinguished error values;
* `f64` configuration values are modelled as exact rationals (`Rat`); the
  `f64 -> usize` saturating cast truncates toward zero and clamps.
-/

deriving instance DecidableEq for Except

namespace Conduwuit

namespace De

/-- Record separator; an intentionally invalid-utf8 byte (`Deserializer::SEP`). -/
def SEP : Nat := 255

/-- Deserialization state (`struct Deserializer`): buffer, position, and the
flag marking that a sequence has started. -/
structure Deserializer where
  buf : List Nat
  pos : Nat
  seq : Bool
deriving DecidableEq, Repr

/-- Decode errors. `tryFromSlice` is the `TryFromSliceError` raised when a
slice is converted to `[u8; 8]` and its length is not exactly 8; `utf8` is a
string-validation failure; `trailing` and `posOverflow` arise in `finished`;
`invalidLength` is serde's error when a tuple visitor demands an element and
the sequence has ended. -/
inductive DeError
  | tryFromSlice
  | utf8
  | trailing
  | posOverflow
  | invalidLength
deriving DecidableEq, Repr

/-- `Deserializer::inc_pos`: advance the position pointer. (The source uses
`usize::saturating_add`; positions here stay below the buffer length, far from
the saturation point, so plain addition is the faithful model.) -/
def incPos (d : Deserializer) (n : Nat) : Deserializer :=
  { d with pos := d.pos + n }

/-- `Deserializer::record_next`: consume the current record — the bytes of
`buf[pos..]` up to but not including the next `SEP` (or to the end) — and
advance `pos` by the record length. Returns the record and the new state. -/
def recordNext (d : Deserializer) : List Nat × Deserializer :=
  ((d.buf.drop d.pos).takeWhile (fun b => b != SEP),
    incPos d ((d.buf.drop d.pos).takeWhile (fun b => b != SEP)).length)

/-- `Deserializer::record_start`: consume the record separator so the position
points at the start of the next record. One byte is skipped exactly when
`pos != 0` (`started.into()`); the source's check that the skipped byte is
`SEP` is a `debug_assert`, absent from release behaviour. -/
def recordStart (d : Deserializer) : Deserializer :=
  incPos d (if d.pos ≠ 0 then 1 else 0)

/-- `Deserializer::record_trail`: consume all remaining bytes, which may
include record separators, returning them as a raw slice. -/
def recordTrail (d : Deserializer) : List Nat × Deserializer :=
  (d.buf.drop d.pos, incPos d (d.buf.drop d.pos).length)

/-- `Deserializer::record_ignore`: inside a sequence skip the current record;
at the top level consume everything remaining. -/
def recordIgnore (d : Deserializer) : Deserializer :=
  if d.seq then (recordNext d).2 else (recordTrail d).2

/-- `Deserializer::record_ignore_all`: consume the current and all remaining
records. -/
def recordIgnoreAll (d : Deserializer) : Deserializer :=
  (recordTrail d).2

/-- `Deserializer::sequence_start`: mark that a sequence began. (The source's
`debug_assert!(!self.seq)` rejecting nested sequences is debug-only.) -/
def sequenceStart (d : Deserializer) : Deserializer :=
  { d with seq := true }

/-- `Deserializer::finished`: error unless the input was fully consumed or
exactly one trailing `SEP` byte remains. `checked!(len - pos)` underflow is
`posOverflow`. -/
def finished (d : Deserializer) : Except DeError Unit :=
  if d.buf.length < d.pos then .error .posOverflow
  else if d.buf.length - d.pos = 0 ∨
      (d.buf.length - d.pos = 1 ∧ d.buf.getD d.pos 0 = SEP) then .ok ()
  else .error .trailing

/-- Big-endian interpretation of a byte list (`u64::from_be_bytes`). -/
def beNat (bs : List Nat) : Nat :=
  bs.foldl (fun acc b => acc * 256 + b) 0

/-- `i64::from_be_bytes`: big-endian two's-complement interpretation of
8 bytes. -/
def beInt64 (bs : List Nat) : Int :=
  let n := beNat bs
  if n < 2 ^ 63 then (n : Int) else (n : Int) - 2 ^ 64

/-- UTF-8 validity of a byte list, as checked by `std::str::from_utf8`
(`string::str_from_bytes`): well-formed sequences, no overlongs, no
surrogates, maximum scalar value U+10FFFF. -/
def utf8Valid : List Nat → Bool
  | [] => true
  | b :: rest =>
    if b < 0x80 then utf8Valid rest
    else if b < 0xC2 then false
    else if b < 0xE0 then
      match rest with
      | b1 :: rest1 => (0x80 ≤ b1 && b1 < 0xC0) && utf8Valid rest1
      | [] => false
    else if b < 0xF0 then
      match rest with
      | b1 :: b2 :: rest2 =>
        let lo := if b = 0xE0 then 0xA0 else 0x80
        let hi := if b = 0xED then 0xA0 else 0xC0
        ((lo ≤ b1 && b1 < hi) && (0x80 ≤ b2 && b2 < 0xC0)) && utf8Valid rest2
      | _ => false
    else if b < 0xF5 then
      match rest with
      | b1 :: b2 :: b3 :: rest3 =>
        let lo := if b = 0xF0 then 0x90 else 0x80
        let hi := if b = 0xF4 then 0x90 else 0xC0
        (((lo ≤ b1 && b1 < hi) && (0x80 ≤ b2 && b2 < 0xC0))
          && (0x80 ≤ b3 && b3 < 0xC0)) && utf8Valid rest3
      | _ => false
    else false

/-- `deserialize_u64`: the source converts the whole remaining slice
`self.buf[self.pos..]` into `[u8; 8]` — an exact-length conversion that
errors (`TryFromSliceError`) unless exactly 8 bytes remain — then advances
the position by 8 and big-endian decodes. -/
def deserialize_u64 (d : Deserializer) : Except DeError (Nat × Deserializer) :=
  if (d.buf.drop d.pos).length = 8 then .ok (beNat (d.buf.drop d.pos), incPos d 8)
  else .error .tryFromSlice

/-- `deserialize_i64`: same exact-length conversion of the whole remaining
slice into `[u8; 8]`, then two's-complement big-endian decode. -/
def deserialize_i64 (d : Deserializer) : Except DeError (Int × Deserializer) :=
  if (d.buf.drop d.pos).length = 8 then .ok (beInt64 (d.buf.drop d.pos), incPos d 8)
  else .error .tryFromSlice

/-- `deserialize_str` / `deserialize_string`: consume the current record and
UTF-8 validate it. -/
def deserialize_str (d : Deserializer) : Except DeError (List Nat × Deserializer) :=
  if utf8Valid (recordNext d).1 then .ok ((recordNext d).1, (recordNext d).2)
  else .error .utf8

/-- `deserialize_bytes`: consume all remaining bytes, separators included. -/
def deserialize_bytes (d : Deserializer) : List Nat × Deserializer :=
  recordTrail d

/-- Scalar/record decode targets of the schema. Nested sequences are rejected
by the source (`sequence_start` asserts `!self.seq`), so sequence elements
range over these. `str` covers both the borrowed and the owned string target
(identical byte-level behaviour); `ignore`/`ignoreAll` are the unit-struct
directives of `deserialize_unit_struct`. -/
inductive Prim
  | u64
  | i64
  | str
  | bytes
  | ignore
  | ignoreAll
deriving DecidableEq, Repr

/-- Top-level decode targets: a scalar/record target, or a tuple of them
(`deserialize_tuple` / `deserialize_seq`). -/
inductive Ty
  | prim (p : Prim)
  | tuple (ts : List Prim)
deriving DecidableEq, Repr

/-- Values decoded from a scalar/record target. -/
inductive PrimValue
  | u64 (n : Nat)
  | i64 (z : Int)
  | str (bs : List Nat)
  | bytes (bs : List Nat)
  | unit
deriving DecidableEq, Repr

/-- Values decoded from a top-level target. -/
inductive Value
  | prim (v : PrimValue)
  | tuple (vs : List PrimValue)
deriving DecidableEq, Repr

/-- Decode one scalar/record target, dispatching exactly as the corresponding
`Deserializer` trait method does. -/
def decodePrim : Prim → Deserializer → Except DeError (PrimValue × Deserializer)
  | .u64, d =>
    match deserialize_u64 d with
    | .error e => .error e
    | .ok (n, d') => .ok (.u64 n, d')
  | .i64, d =>
    match deserialize_i64 d with
    | .error e => .error e
    | .ok (z, d') => .ok (.i64 z, d')
  | .str, d =>
    match deserialize_str d with
    | .error e => .error e
    | .ok (s, d') => .ok (.str s, d')
  | .bytes, d => .ok (.bytes (deserialize_bytes d).1, (deserialize_bytes d).2)
  | .ignore, d => .ok (.unit, recordIgnore d)
  | .ignoreAll, d => .ok (.unit, recordIgnoreAll d)

/-- Sequence access (`SeqAccess::next_element_seed`, iterated by serde's
derived tuple visitor): when the position has reached the buffer length the
sequence ends — a tuple visitor still expecting an element turns that into an
invalid-length error — otherwise `record_start` runs and the element is
decoded. -/
def decodeSeq : List Prim → Deserializer → Except DeError (List PrimValue × Deserializer)
  | [], d => .ok ([], d)
  | t :: ts, d =>
    if d.buf.length ≤ d.pos then .error .invalidLength
    else
      match decodePrim t (recordStart d) with
      | .error e => .error e
      | .ok (v, d') =>
        match decodeSeq ts d' with
        | .error e => .error e
        | .ok (vs, d'') => .ok (v :: vs, d'')

/-- Decode a top-level target: scalars directly, tuples via `sequence_start`
and sequence access. -/
def decodeTy : Ty → Deserializer → Except DeError (Value × Deserializer)
  | .prim p, d =>
    match decodePrim p d with
    | .error e => .error e
    | .ok (v, d') => .ok (.prim v, d')
  | .tuple ts, d =>
    match decodeSeq ts (sequenceStart d) with
    | .error e => .error e
    | .ok (vs, d') => .ok (.tuple vs, d')

/-- `from_slice` up to its final consumption check: run the target's decoder
against a fresh state. -/
def fromSliceState (t : Ty) (buf : List Nat) : Except DeError (Value × Deserializer) :=
  decodeTy t { buf := buf, pos := 0, seq := false }

/-- `from_slice`: decode, then check `finished`.

Modelled from the spec: the source wraps the `finished` check in
`debug_inspect` with `expect`, both from the conduit utility crate which is
not under `src/`; per the spec, on success trailing unconsumed bytes beyond a
single `SEP` are an error, so the check is modelled as always running and its
failure as a decode error. -/
def from_slice (t : Ty) (buf : List Nat) : Except DeError Value :=
  match fromSliceState t buf with
  | .error e => .error e
  | .ok (v, d) =>
    match finished d with
    | .error e => .error e
    | .ok _ => .ok v

end De

namespace CfOpts

/-- `rocksdb::DBCompressionType` (the variants named by `set_compression`). -/
inductive CompressionType
  | Snappy
  | Zlib
  | Bz2
  | Lz4
  | Lz4hc
  | None
  | Zstd
deriving DecidableEq, Repr

/-- `CacheDisp` from the descriptor module: how a column's block cache is
provisioned. -/
inductive CacheDisp
  | Unique
  | SharedWith (other : String)
  | Shared
deriving DecidableEq, Repr

/-- The global server configuration fields read by `cf_opts.rs`. The
`cache_capacity_modifier` is an `f64`, modelled as an exact rational; the
capacity overrides are `u32` values, modelled as `Nat`. -/
structure Config where
  rocksdb_compression_algo : String
  rocksdb_compression_level : Int
  rocksdb_bottommost_compression : Bool
  rocksdb_bottommost_compression_level : Int
  cache_capacity_modifier : Rat
  eventid_pdu_cache_capacity : Nat
  eventidshort_cache_capacity : Nat
  shorteventid_cache_capacity : Nat
  auth_chain_cache_capacity : Nat
  shortstatekey_cache_capacity : Nat
  statekeyshort_cache_capacity : Nat
  servernameevent_data_cache_capacity : Nat
  pdu_cache_capacity : Nat
deriving DecidableEq, Repr

/-- The per-column `Descriptor` fields consumed by `cf_opts.rs`. -/
structure Descriptor where
  name : String
  dropped : Bool
  cache_disp : CacheDisp
  cache_size : Nat
  cache_shards : Nat
  key_size_hint : Option Nat
  val_size_hint : Option Nat
  block_size : Nat
  index_size : Nat
  block_index_hashing : Bool
  compression : CompressionType
  compression_level : Int
  bottommost_level : Option Int
deriving DecidableEq, Repr

/-- `set_compression`: patch the descriptor's compression fields from global
config — compression type chosen by config string with `Zstd` for anything
unrecognized, level copied verbatim, bottommost level present iff bottommost
compression is enabled (`bool::then_some`). -/
def set_compression (desc : Descriptor) (config : Config) : Descriptor :=
  { desc with
    compression :=
      if config.rocksdb_compression_algo = "snappy" then .Snappy
      else if config.rocksdb_compression_algo = "zlib" then .Zlib
      else if config.rocksdb_compression_algo = "bz2" then .Bz2
      else if config.rocksdb_compression_algo = "lz4" then .Lz4
      else if config.rocksdb_compression_algo = "lz4hc" then .Lz4hc
      else if config.rocksdb_compression_algo = "none" then .None
      else .Zstd
    compression_level := config.rocksdb_compression_level
    bottommost_level :=
      if config.rocksdb_bottommost_compression then
        some config.rocksdb_bottommost_compression_level
      else none }

/-- `rocksdb::BlockBasedPinningTier`. -/
inductive BlockBasedPinningTier
  | Fallback
  | None
  | FlushedAndSimilar
  | All
deriving DecidableEq, Repr

/-- `rocksdb::BlockBasedIndexType`. -/
inductive BlockBasedIndexType
  | BinarySearch
  | HashSearch
  | TwoLevelIndexSearch
deriving DecidableEq, Repr

/-- `rocksdb::DataBlockIndexType`. -/
inductive DataBlockIndexType
  | BinarySearch
  | BinaryAndHash
deriving DecidableEq, Repr

/-- The `rocksdb::BlockBasedOptions` fields touched by `table_options` and
`set_table_options`. A native cache handle is identified by a `Nat` id;
`no_block_cache` records a `disable_cache()` call. -/
structure BlockBasedOptions where
  block_size : Nat
  metadata_block_size : Nat
  cache_index_and_filter_blocks : Bool
  pin_top_level_index_and_filter : Bool
  pin_l0_filter_and_index_blocks_in_cache : Bool
  partition_pinning_tier : BlockBasedPinningTier
  unpartitioned_pinning_tier : BlockBasedPinningTier
  top_level_index_pinning_tier : BlockBasedPinningTier
  partition_filters : Bool
  use_delta_encoding : Bool
  index_type : BlockBasedIndexType
  data_block_index_type : DataBlockIndexType
  block_cache : Option Nat
  no_block_cache : Bool
deriving DecidableEq, Repr

/-- Modelled from the spec: `rocksdb::BlockBasedOptions::default()` comes from
the external engine crate. Its values are immaterial to the theorems below,
which concern only fields the source explicitly sets. -/
def BlockBasedOptions.default : BlockBasedOptions where
  block_size := 4096
  metadata_block_size := 4096
  cache_index_and_filter_blocks := false
  pin_top_level_index_and_filter := true
  pin_l0_filter_and_index_blocks_in_cache := false
  partition_pinning_tier := .Fallback
  unpartitioned_pinning_tier := .Fallback
  top_level_index_pinning_tier := .Fallback
  partition_filters := false
  use_delta_encoding := true
  index_type := .BinarySearch
  data_block_index_type := .BinarySearch
  block_cache := none
  no_block_cache := false

/-- `table_options`: build the block-based table options for a descriptor —
block and metadata block sizes from the descriptor, index/filter caching
exactly when a cache is present, no pinning at any tier, partitioned filters,
delta encoding off, two-level index search, and data-block index type
`BinaryAndHash` iff the descriptor opts into block-index hashing. -/
def table_options (desc : Descriptor) (has_cache : Bool) : BlockBasedOptions :=
  { BlockBasedOptions.default with
    block_size := desc.block_size
    metadata_block_size := desc.index_size
    cache_index_and_filter_blocks := has_cache
    pin_top_level_index_and_filter := false
    pin_l0_filter_and_index_blocks_in_cache := false
    partition_pinning_tier := .None
    unpartitioned_pinning_tier := .None
    top_level_index_pinning_tier := .None
    partition_filters := true
    use_delta_encoding := false
    index_type := .TwoLevelIndexSearch
    data_block_index_type :=
      if desc.block_index_hashing then .BinaryAndHash else .BinarySearch }

/-- `set_table_options`: attach the block cache when one was provided,
otherwise explicitly disable the cache. (The readahead options string the
source also applies configures the column `Options`, not these table
options.) -/
def set_table_options (desc : Descriptor) (cache : Option Nat) : BlockBasedOptions :=
  let table := table_options desc cache.isSome
  match cache with
  | some c => { table with block_cache := some c }
  | none => { table with no_block_cache := true }

/-- Fatal configuration errors: panics and config errors raised during cache
provisioning (`expected_add`, the `checked_mul` overflow, `ilog2` of zero,
and the missing shared cache `expect`). -/
inductive CfgError
  | entSizeOverflow
  | cacheTooLarge
  | ilog2Zero
  | sharedCacheMissing
deriving DecidableEq, Repr

/-- `usize::MAX` on the 64-bit targets the server builds for. -/
def USIZE_MAX : Nat := 2 ^ 64 - 1

/-- `usize::checked_add` (`Expected::expected_add` panics on overflow). -/
def checkedAdd (a b : Nat) : Except CfgError Nat :=
  if a + b ≤ USIZE_MAX then .ok (a + b) else .error .entSizeOverflow

/-- The `ents as usize` cast: an `f64 -> usize` `as` conversion truncates
toward zero and saturates. Negative values clamp to zero (`Int.toNat`),
values beyond `usize::MAX` clamp to `usize::MAX`. -/
def f64AsUsize (q : Rat) : Nat :=
  min ⌊q⌋.toNat USIZE_MAX

/-- `cache_size_f64`: scale an entity count to bytes — multiply by the
configured `cache_capacity_modifier`, cast to `usize`, then `checked_mul` by
the per-entity size with overflow fatal. `f64` arithmetic is modelled as
exact rational arithmetic. -/
def cache_size_f64 (config : Config) (base_size : Rat) (entity_size : Nat) :
    Except CfgError Nat :=
  if f64AsUsize (base_size * config.cache_capacity_modifier) * entity_size ≤ USIZE_MAX then
    .ok (f64AsUsize (base_size * config.cache_capacity_modifier) * entity_size)
  else .error .cacheTooLarge

/-- `cache_size`: scale a `u32` entity count (`f64::from(u32)` is exact). -/
def cache_size (config : Config) (base_size : Nat) (entity_size : Nat) :
    Except CfgError Nat :=
  cache_size_f64 config (base_size : Rat) entity_size

/-- The legacy capacity override table of `get_cache`: the match on
`desc.name` that selects a config capacity for the nine well-known column
names, with `pduid_pdu` and `eventid_outlierpdu` sharing the single
`pdu_cache_capacity`. -/
def cap_override (config : Config) (name : String) : Option Nat :=
  if name = "eventid_pduid" then some config.eventid_pdu_cache_capacity
  else if name = "eventid_shorteventid" then some config.eventidshort_cache_capacity
  else if name = "shorteventid_eventid" then some config.shorteventid_cache_capacity
  else if name = "shorteventid_authchain" then some config.auth_chain_cache_capacity
  else if name = "shortstatekey_statekey" then some config.shortstatekey_cache_capacity
  else if name = "statekey_shortstatekey" then some config.statekeyshort_cache_capacity
  else if name = "servernameevent_data" then some config.servernameevent_data_cache_capacity
  else if name = "pduid_pdu" ∨ name = "eventid_outlierpdu" then some config.pdu_cache_capacity
  else none

/-- The per-entity size of `get_cache`:
`key_size_hint.unwrap_or_default() + val_size_hint.unwrap_or_default()`, with
addition overflow fatal (`expected_add`). -/
def ent_size (desc : Descriptor) : Except CfgError Nat :=
  checkedAdd (desc.key_size_hint.getD 0) (desc.val_size_hint.getD 0)

/-- The cache capacity `size` computed by `get_cache`: the scaled override
capacity when the column name is in the override table, otherwise the
descriptor's own `cache_size` unscaled. -/
def selected_cache_size (config : Config) (desc : Descriptor) : Except CfgError Nat :=
  match ent_size desc with
  | .error e => .error e
  | .ok es =>
    match cap_override config desc.name with
    | some cap => cache_size config cap es
    | none => .ok desc.cache_size

/-- The process-wide cache registry (`ctx.col_cache`): a mapping from cache
name to a native cache handle, here identified by a `Nat` id; `next_id`
supplies the identity of the next freshly created cache
(`Cache::new_lru_cache_opts`). -/
structure CacheRegistry where
  caches : List (String × Nat)
  next_id : Nat
deriving DecidableEq, Repr

/-- Registry lookup (`HashMap::get` / `contains_key`). -/
def CacheRegistry.lookup (r : CacheRegistry) (k : String) : Option Nat :=
  (r.caches.find? (fun p => p.1 == k)).map (fun p => p.2)

/-- Registry insertion (`HashMap::insert`); consing shadows any older binding
for lookup purposes. -/
def CacheRegistry.insert (r : CacheRegistry) (k : String) (v : Nat) : CacheRegistry :=
  { r with caches := (k, v) :: r.caches }

/-- `get_cache`: resolve a descriptor's block cache. A dropped column gets no
cache at all, before any capacity computation or registry access. Otherwise
the capacity is selected and scaled, the shard count's base-2 log is taken
(`ilog2` panics on zero), and the disposition decides: `Unique` with a zero
descriptor `cache_size` yields no cache; `Unique` otherwise creates a fresh
cache registered under the column name; `SharedWith(other)` reuses the
registered cache when present and otherwise creates a fresh one registered
under this column's own name; `Shared` requires the `"Shared"` cache to
already exist (its absence is a fatal `expect`). -/
def get_cache (config : Config) (reg : CacheRegistry) (desc : Descriptor) :
    Except CfgError (Option Nat × CacheRegistry) :=
  if desc.dropped then .ok (none, reg)
  else
    match selected_cache_size config desc with
    | .error e => .error e
    | .ok _size =>
      if desc.cache_shards = 0 then .error .ilog2Zero
      else
        match desc.cache_disp with
        | .Unique =>
          if desc.cache_size = 0 then .ok (none, reg)
          else .ok (some reg.next_id,
            { caches := (desc.name, reg.next_id) :: reg.caches, next_id := reg.next_id + 1 })
        | .SharedWith other =>
          match reg.lookup other with
          | none => .ok (some reg.next_id,
            { caches := (desc.name, reg.next_id) :: reg.caches, next_id := reg.next_id + 1 })
          | some h => .ok (some h, reg)
        | .Shared =>
          match reg.lookup "Shared" with
          | some h => .ok (some h, reg)
          | none => .error .sharedCacheMissing

end CfOpts

namespace Appservice

/-- Modelled from the spec: the `KvTree` key-value tree abstraction comes from
the database crate, which is not under `src/`; it is modelled as a finite
association map from keys to stored values (keys and values as strings, the
byte conversions being injective). -/
abbrev KvTree := List (String × String)

/-- Modelled from the spec: `KvTree::remove` erases the key from the map and
succeeds regardless of whether the key was present — removal performs no
existence check. -/
def KvTree.remove (t : KvTree) (k : String) : Except String KvTree :=
  .ok (t.filter (fun p => p.1 != k))

/-- `Data::register_appservice`: insert the registration under its id and
return the id. -/
def register_appservice (t : KvTree) (id : String) (yaml : String) :
    Except String (String × KvTree) :=
  .ok (id, (id, yaml) :: t.filter (fun p => p.1 != id))

/-- `Data::unregister_appservice`: forward to `KvTree::remove` and return
`Ok(())` whenever the removal call succeeds; no check that the service was
registered. -/
def unregister_appservice (t : KvTree) (service_name : String) :
    Except String (Unit × KvTree) :=
  match KvTree.remove t service_name with
  | .error e => .error e
  | .ok t' => .ok ((), t')

end Appservice

/-! ## Helper lemmas about the decoder -/

namespace De

theorem recordStart_buf (d : Deserializer) : (recordStart d).buf = d.buf := rfl

theorem recordStart_seq (d : Deserializer) : (recordStart d).seq = d.seq := rfl

theorem deserialize_u64_state {d : Deserializer} {n : Nat} {d' : Deserializer}
    (h : deserialize_u64 d = .ok (n, d')) : d' = incPos d 8 := by
  unfold deserialize_u64 at h
  split at h
  · simp only [Except.ok.injEq, Prod.mk.injEq] at h
    exact h.2.symm
  · cases h

theorem deserialize_i64_state {d : Deserializer} {z : Int} {d' : Deserializer}
    (h : deserialize_i64 d = .ok (z, d')) : d' = incPos d 8 := by
  unfold deserialize_i64 at h
  split at h
  · simp only [Except.ok.injEq, Prod.mk.injEq] at h
    exact h.2.symm
  · cases h

theorem deserialize_str_state {d : Deserializer} {s : List Nat} {d' : Deserializer}
    (h : deserialize_str d = .ok (s, d')) : d' = (recordNext d).2 := by
  unfold deserialize_str at h
  split at h
  · simp only [Except.ok.injEq, Prod.mk.injEq] at h
    exact h.2.symm
  · cases h

/-- Every scalar/record decode step preserves the underlying buffer. -/
theorem decodePrim_buf {p : Prim} {d : Deserializer} {v : PrimValue} {d' : Deserializer}
    (h : decodePrim p d = .ok (v, d')) : d'.buf = d.buf := by
  cases p with
  | u64 =>
    simp only [decodePrim] at h
    split at h
    · cases h
    · rename_i n d1 hu
      simp only [Except.ok.injEq, Prod.mk.injEq] at h
      rw [← h.2, deserialize_u64_state hu]
      rfl
  | i64 =>
    simp only [decodePrim] at h
    split at h
    · cases h
    · rename_i z d1 hu
      simp only [Except.ok.injEq, Prod.mk.injEq] at h
      rw [← h.2, deserialize_i64_state hu]
      rfl
  | str =>
    simp only [decodePrim] at h
    split at h
    · cases h
    · rename_i s d1 hu
      simp only [Except.ok.injEq, Prod.mk.injEq] at h
      rw [← h.2, deserialize_str_state hu]
      rfl
  | bytes =>
    simp only [decodePrim, deserialize_bytes, recordTrail, Except.ok.injEq,
      Prod.mk.injEq] at h
    rw [← h.2]
    rfl
  | ignore =>
    simp only [decodePrim, Except.ok.injEq, Prod.mk.injEq] at h
    rw [← h.2]
    unfold recordIgnore
    split <;> rfl
  | ignoreAll =>
    simp only [decodePrim, Except.ok.injEq, Prod.mk.injEq] at h
    rw [← h.2]
    rfl

/-- Sequence decoding preserves the underlying buffer. -/
theorem decodeSeq_buf {ts : List Prim} {d : Deserializer} {vs : List PrimValue}
    {d' : Deserializer} (h : decodeSeq ts d = .ok (vs, d')) : d'.buf = d.buf := by
  induction ts generalizing d vs d' with
  | nil =>
    simp only [decodeSeq, Except.ok.injEq, Prod.mk.injEq] at h
    rw [← h.2]
  | cons t ts ih =>
    simp only [decodeSeq] at h
    split at h
    · cases h
    · split at h
      · cases h
      · rename_i v1 d1 hp
        split at h
        · cases h
        · rename_i vs1 d2 hs
          simp only [Except.ok.injEq, Prod.mk.injEq] at h
          rw [← h.2]
          calc d2.buf = d1.buf := ih hs
            _ = (recordStart d).buf := decodePrim_buf hp
            _ = d.buf := rfl

/-- Top-level decoding preserves the underlying buffer. -/
theorem decodeTy_buf {t : Ty} {d : Deserializer} {v : Value} {d' : Deserializer}
    (h : decodeTy t d = .ok (v, d')) : d'.buf = d.buf := by
  cases t with
  | prim p =>
    simp only [decodeTy] at h
    split at h
    · cases h
    · rename_i v1 d1 hp
      simp only [Except.ok.injEq, Prod.mk.injEq] at h
      rw [← h.2]
      exact decodePrim_buf hp
  | tuple ts =>
    simp only [decodeTy] at h
    split at h
    · cases h
    · rename_i vs1 d1 hs
      simp only [Except.ok.injEq, Prod.mk.injEq] at h
      rw [← h.2]
      exact (decodeSeq_buf hs).trans rfl

/-- Characterization of `finished`: it succeeds exactly when the input was
fully consumed or exactly one byte — the separator — remains. -/
theorem finished_ok_iff (d : Deserializer) :
    finished d = .ok () ↔
      (d.pos = d.buf.length ∨
        (d.pos + 1 = d.buf.length ∧ d.buf.getD d.pos 0 = SEP)) := by
  unfold finished
  by_cases h1 : d.buf.length < d.pos
  · rw [if_pos h1]
    constructor
    · intro hc; cases hc
    · rintro (h | ⟨h, _⟩) <;> omega
  · rw [if_neg h1]
    by_cases h2 : d.buf.length - d.pos = 0 ∨
        (d.buf.length - d.pos = 1 ∧ d.buf.getD d.pos 0 = SEP)
    · rw [if_pos h2]
      constructor
      · intro _
        rcases h2 with h | ⟨h, hs⟩
        · left; omega
        · right; exact ⟨by omega, hs⟩
      · intro _; rfl
    · rw [if_neg h2]
      constructor
      · intro hc; cases hc
      · rintro (h | ⟨h, hs⟩)
        · exact absurd (Or.inl (by omega)) h2
        · exact absurd (Or.inr ⟨by omega, hs⟩) h2

/-- After `takeWhile` keeps everything up to the first separator, either the
whole list was kept or the byte right after the kept prefix is `SEP`. -/
theorem takeWhile_length_or_sep (l : List Nat) :
    (l.takeWhile (fun b => b != SEP)).length = l.length ∨
      l.getD (l.takeWhile (fun b => b != SEP)).length 0 = SEP := by
  induction l with
  | nil => exact Or.inl rfl
  | cons b tl ih =>
    by_cases hb : b = SEP
    · right
      simp [List.takeWhile_cons, hb]
    · rcases ih with h | h
      · left
        simp [List.takeWhile_cons, hb, h]
      · right
        simpa [List.takeWhile_cons, hb] using h

/-- `getD` through `drop`. -/
theorem getD_drop (l : List Nat) (p i : Nat) :
    (l.drop p).getD i 0 = l.getD (p + i) 0 := by
  simp [List.getD_eq_getElem?_getD, List.getElem?_drop]

end De

/-! ## Claims -/

namespace De

/-- C1 (code bug): the spec says the u64/i64 scalar decoders read 8 bytes at
the current position and fail only when fewer than 8 bytes remain, so that
decoding `(u64, string)` from `00 00 00 00 00 00 00 01 FF 78` yields
`(1, "x")`. The code instead converts the entire remaining slice into
`[u8; 8]` — an exact-length conversion — so any integer field that is not the
final record with exactly 8 bytes left fails with a `TryFromSliceError`, and
the spec's composite example errors out. Advancing the position by exactly 8
(`inc_pos(size_of::<u64>())`) right after shows reading 8 bytes was the
intent. -/
theorem c1_u64_decoder_rejects_spec_composite_example :
    from_slice (.tuple [.u64, .str]) [0, 0, 0, 0, 0, 0, 0, 1, 255, 120] =
      .error .tryFromSlice ∧
    deserialize_u64 { buf := [0, 0, 0, 0, 0, 0, 0, 1, 255, 120], pos := 0, seq := true } =
      .error .tryFromSlice ∧
    from_slice (.prim .u64) [0, 0, 0, 0, 0, 0, 0, 1] = .ok (.prim (.u64 1)) ∧
    from_slice (.tuple [.str, .u64]) [120, 255, 0, 0, 0, 0, 0, 0, 0, 1] =
      .ok (.tuple [.str [120], .u64 1]) := by decide

/-- C3: `from_slice::<Ignore>` succeeds on every byte sequence (at the top
level the directive consumes all remaining bytes), and inside a sequence an
`Ignore` consumes exactly the current record — the position advances by the
record's length, stopping either at the end of the buffer or just before the
following separator byte. -/
theorem c3_ignore_total_top_level_and_skips_one_record :
    (∀ buf : List Nat, from_slice (.prim .ignore) buf = .ok (.prim .unit)) ∧
    (∀ d : Deserializer, d.seq = true → d.pos ≤ d.buf.length →
      (recordIgnore d).buf = d.buf ∧
      (recordIgnore d).pos =
        d.pos + ((d.buf.drop d.pos).takeWhile (fun b => b != SEP)).length ∧
      ((recordIgnore d).pos = d.buf.length ∨
        d.buf.getD (recordIgnore d).pos 0 = SEP)) := by
  constructor
  · intro buf
    have h1 : fromSliceState (.prim .ignore) buf =
        .ok (.prim .unit, { buf := buf, pos := buf.length, seq := false }) := by
      simp [fromSliceState, decodeTy, decodePrim, recordIgnore, recordIgnoreAll,
        recordTrail, incPos]
    have h2 : finished { buf := buf, pos := buf.length, seq := false } = .ok () := by
      simp [finished]
    simp [from_slice, h1, h2]
  · intro d hseq hpos
    have hri : recordIgnore d =
        incPos d ((d.buf.drop d.pos).takeWhile (fun b => b != SEP)).length := by
      unfold recordIgnore
      rw [if_pos hseq]
      rfl
    refine ⟨by rw [hri]; rfl, by rw [hri]; rfl, ?_⟩
    rw [hri]
    show d.pos + _ = d.buf.length ∨ d.buf.getD (d.pos + _) 0 = SEP
    rcases takeWhile_length_or_sep (d.buf.drop d.pos) with h | h
    · left
      rw [h, List.length_drop]
      omega
    · right
      rw [getD_drop] at h
      exact h

/-- C3 witness: the theorem applied at a concrete buffer and at a concrete
in-sequence state whose current record is `"a"` followed by a separator. -/
theorem c3_witness :
    from_slice (.prim .ignore) [9, 255, 7] = .ok (.prim .unit) ∧
    (recordIgnore { buf := [97, 255, 98], pos := 0, seq := true }).pos = 1 ∧
    ((recordIgnore { buf := [97, 255, 98], pos := 0, seq := true }).pos = 3 ∨
      [97, 255, 98].getD (recordIgnore { buf := [97, 255, 98], pos := 0, seq := true }).pos 0 = SEP) :=
  ⟨c3_ignore_total_top_level_and_skips_one_record.1 [9, 255, 7],
    by
      have h := c3_ignore_total_top_level_and_skips_one_record.2
        { buf := [97, 255, 98], pos := 0, seq := true } rfl (by decide)
      rw [h.2.1]; decide,
    (c3_ignore_total_top_level_and_skips_one_record.2
      { buf := [97, 255, 98], pos := 0, seq := true } rfl (by decide)).2.2⟩

/-- A successful `from_slice` is exactly a successful decode whose final
state passes the `finished` check. -/
theorem from_slice_ok_iff {t : Ty} {buf : List Nat} {v : Value} :
    from_slice t buf = .ok v ↔
      ∃ d, fromSliceState t buf = .ok (v, d) ∧ finished d = .ok () := by
  unfold from_slice
  cases hst : fromSliceState t buf with
  | error e => simp
  | ok r =>
    obtain ⟨v1, d⟩ := r
    cases hf : finished d with
    | error e => simp [hf]
    | ok u =>
      cases u
      dsimp only
      rw [hf]
      dsimp only
      constructor
      · intro hv
        simp only [Except.ok.injEq] at hv
        exact ⟨d, by rw [hv], hf⟩
      · rintro ⟨d1, hok, hfin⟩
        simp only [Except.ok.injEq, Prod.mk.injEq] at hok
        rw [hok.1]

/-- C2: whenever a top-level decode succeeds, the consumed byte count equals
the buffer length, or the buffer length minus one with the final byte being
the separator `0xFF`; any other amount of unconsumed trailing bytes makes the
top-level decode an error. -/
theorem c2_from_slice_full_consumption (t : Ty) (buf : List Nat) :
    (∀ v, from_slice t buf = .ok v →
      ∃ d, fromSliceState t buf = .ok (v, d) ∧
        (d.pos = buf.length ∨
          (d.pos + 1 = buf.length ∧ buf.getD d.pos 0 = SEP))) ∧
    (∀ v d, fromSliceState t buf = .ok (v, d) →
      ¬(d.pos = buf.length ∨ (d.pos + 1 = buf.length ∧ buf.getD d.pos 0 = SEP)) →
      ∃ e, from_slice t buf = .error e) := by
  have hbuf : ∀ {v : Value} {d : Deserializer},
      fromSliceState t buf = .ok (v, d) → d.buf = buf := by
    intro v d h
    exact decodeTy_buf h
  constructor
  · intro v h
    obtain ⟨d, hst, hfin⟩ := from_slice_ok_iff.mp h
    refine ⟨d, hst, ?_⟩
    have hiff := (finished_ok_iff d).mp hfin
    rw [hbuf hst] at hiff
    exact hiff
  · intro v d hst hno
    cases hres : from_slice t buf with
    | error e => exact ⟨e, rfl⟩
    | ok v2 =>
      exfalso
      obtain ⟨d2, hst2, hfin2⟩ := from_slice_ok_iff.mp hres
      have hd : d = d2 := by
        have h12 := hst.symm.trans hst2
        simp only [Except.ok.injEq, Prod.mk.injEq] at h12
        exact h12.2
      apply hno
      rw [hd]
      have hiff := (finished_ok_iff d2).mp hfin2
      rw [hbuf hst2] at hiff
      exact hiff

/-- C2 witness: the theorem applied to a string decode whose buffer ends in a
tolerated trailing separator, and to a tuple decode that leaves two
unconsumed bytes and therefore errors. -/
theorem c2_witness :
    (∃ d, fromSliceState (.prim .str) [97, 255] = .ok (.prim (.str [97]), d) ∧
      (d.pos = 2 ∨ (d.pos + 1 = 2 ∧ [97, 255].getD d.pos 0 = SEP))) ∧
    (∃ e, from_slice (.tuple [.str, .str]) [97, 255, 98, 255, 99] = .error e) := by
  constructor
  · exact (c2_from_slice_full_consumption (.prim .str) [97, 255]).1
      (.prim (.str [97])) (by decide)
  · exact (c2_from_slice_full_consumption (.tuple [.str, .str]) [97, 255, 98, 255, 99]).2
      (.tuple [.str [97], .str [98]])
      { buf := [97, 255, 98, 255, 99], pos := 3, seq := true }
      (by decide) (by decide)

/-- C7 counterexample: the claim says every element after the first skips
exactly one separator byte before being decoded. In the code the skip happens
exactly when the position is nonzero, not when the element is non-first: on
the buffer `FF 61`, the first string element decodes the empty record and
leaves the position at 0, so the second element's `record_start` skips
nothing — zero separator bytes, not one — and the whole `(str, str)` decode
ends with two unconsumed bytes and errors instead of yielding `("", "a")`. -/
theorem c7_counterexample_second_element_skips_nothing :
    decodePrim .str { buf := [255, 97], pos := 0, seq := true } =
      .ok (.str [], { buf := [255, 97], pos := 0, seq := true }) ∧
    recordStart { buf := [255, 97], pos := 0, seq := true } =
      { buf := [255, 97], pos := 0, seq := true } ∧
    ¬(recordStart { buf := [255, 97], pos := 0, seq := true }).pos = 0 + 1 ∧
    from_slice (.tuple [.str, .str]) [255, 97] = .error .trailing := by decide

/-- C7 as amended: sequence decoding demands elements until the position
reaches or exceeds the buffer length (a tuple visitor still expecting an
element then fails with an invalid-length error); each element is decoded
from the state produced by `record_start`, which skips exactly one separator
byte when the position is nonzero and none when it is zero — so elements
after the first skip exactly one separator whenever the preceding elements
consumed at least one byte. -/
theorem c7_amended_sequence_stepping (t : Prim) (ts : List Prim) (d : Deserializer) :
    (d.buf.length ≤ d.pos → decodeSeq (t :: ts) d = .error .invalidLength) ∧
    (d.pos < d.buf.length → ∀ e, decodePrim t (recordStart d) = .error e →
      decodeSeq (t :: ts) d = .error e) ∧
    (d.pos < d.buf.length → ∀ v d', decodePrim t (recordStart d) = .ok (v, d') →
      decodeSeq (t :: ts) d =
        match decodeSeq ts d' with
        | .error e => .error e
        | .ok (vs, d'') => .ok (v :: vs, d'')) ∧
    ((recordStart d).buf = d.buf ∧ (recordStart d).seq = d.seq ∧
      (recordStart d).pos = d.pos + if d.pos = 0 then 0 else 1) ∧
    decodeSeq ([] : List Prim) d = .ok ([], d) := by
  refine ⟨?_, ?_, ?_, ⟨rfl, rfl, ?_⟩, rfl⟩
  · intro hle
    unfold decodeSeq
    rw [if_pos hle]
  · intro hlt e he
    simp only [decodeSeq]
    rw [if_neg (by omega), he]
  · intro hlt v d' hok
    simp only [decodeSeq]
    rw [if_neg (by omega), hok]
  · unfold recordStart incPos
    by_cases h0 : d.pos = 0
    · simp [h0]
    · simp [h0]

/-- C7 amended witness: the theorem applied at concrete states — a state past
the end of the buffer ends the sequence, a nonzero position skips exactly one
byte, and a zero position skips none. -/
theorem c7_amended_witness :
    decodeSeq [Prim.str] { buf := [97], pos := 5, seq := true } =
      .error .invalidLength ∧
    (recordStart { buf := [97, 255, 98], pos := 1, seq := true }).pos = 2 ∧
    (recordStart { buf := [97, 255, 98], pos := 0, seq := true }).pos = 0 ∧
    decodeSeq [Prim.str] { buf := [97], pos := 0, seq := true } =
      .ok ([.str [97]], { buf := [97], pos := 1, seq := true }) := by
  refine ⟨(c7_amended_sequence_stepping .str [] _).1 (by decide), ?_, ?_, ?_⟩
  · rw [(c7_amended_sequence_stepping .str []
      { buf := [97, 255, 98], pos := 1, seq := true }).2.2.2.1.2.2]
    decide
  · rw [(c7_amended_sequence_stepping .str []
      { buf := [97, 255, 98], pos := 0, seq := true }).2.2.2.1.2.2]
    decide
  · rw [(c7_amended_sequence_stepping .str []
      { buf := [97], pos := 0, seq := true }).2.2.1 (by decide)
      (.str [97]) { buf := [97], pos := 1, seq := true } (by decide)]
    decide

end De

namespace CfOpts

/-- A sample configuration used by the concrete witnesses. -/
def sampleConfig : Config where
  rocksdb_compression_algo := "lz4"
  rocksdb_compression_level := 3
  rocksdb_bottommost_compression := true
  rocksdb_bottommost_compression_level := 5
  cache_capacity_modifier := 1
  eventid_pdu_cache_capacity := 100
  eventidshort_cache_capacity := 110
  shorteventid_cache_capacity := 120
  auth_chain_cache_capacity := 130
  shortstatekey_cache_capacity := 140
  statekeyshort_cache_capacity := 160
  servernameevent_data_cache_capacity := 170
  pdu_cache_capacity := 150

/-- A sample descriptor used by the concrete witnesses. -/
def sampleDesc : Descriptor where
  name := "tokens"
  dropped := false
  cache_disp := .Unique
  cache_size := 1024
  cache_shards := 64
  key_size_hint := some 48
  val_size_hint := some 16
  block_size := 1024
  index_size := 512
  block_index_hashing := false
  compression := .Zstd
  compression_level := 0
  bottommost_level := none

/-- C6: descriptor patching before options assembly sets the compression type
named by the config string among snappy/zlib/bz2/lz4/lz4hc/none (with `Zstd`
for anything else, including the string "zstd" itself), copies the
compression level verbatim, and sets the bottommost level to
`Some(config value)` if and only if the config enables bottommost
compression. -/
theorem c6_set_compression_patches_descriptor (desc : Descriptor) (config : Config) :
    (config.rocksdb_compression_algo = "snappy" →
      (set_compression desc config).compression = .Snappy) ∧
    (config.rocksdb_compression_algo = "zlib" →
      (set_compression desc config).compression = .Zlib) ∧
    (config.rocksdb_compression_algo = "bz2" →
      (set_compression desc config).compression = .Bz2) ∧
    (config.rocksdb_compression_algo = "lz4" →
      (set_compression desc config).compression = .Lz4) ∧
    (config.rocksdb_compression_algo = "lz4hc" →
      (set_compression desc config).compression = .Lz4hc) ∧
    (config.rocksdb_compression_algo = "none" →
      (set_compression desc config).compression = .None) ∧
    (config.rocksdb_compression_algo ∉
        (["snappy", "zlib", "bz2", "lz4", "lz4hc", "none"] : List String) →
      (set_compression desc config).compression = .Zstd) ∧
    (set_compression desc config).compression_level =
      config.rocksdb_compression_level ∧
    (config.rocksdb_bottommost_compression = true →
      (set_compression desc config).bottommost_level =
        some config.rocksdb_bottommost_compression_level) ∧
    (config.rocksdb_bottommost_compression = false →
      (set_compression desc config).bottommost_level = none) := by
  refine ⟨?_, ?_, ?_, ?_, ?_, ?_, ?_, rfl, ?_, ?_⟩
  · intro h; simp [set_compression, h]
  · intro h; simp [set_compression, h]
  · intro h; simp [set_compression, h]
  · intro h; simp [set_compression, h]
  · intro h; simp [set_compression, h]
  · intro h; simp [set_compression, h]
  · intro h
    simp only [List.mem_cons, List.not_mem_nil, or_false, not_or] at h
    obtain ⟨h1, h2, h3, h4, h5, h6⟩ := h
    simp [set_compression, h1, h2, h3, h4, h5, h6]
  · intro h; simp [set_compression, h]
  · intro h; simp [set_compression, h]

/-- C6 witness: the theorem applied to the sample configuration, whose
compression string is `lz4` and which enables bottommost compression at
level 5. -/
theorem c6_witness :
    (set_compression sampleDesc sampleConfig).compression = .Lz4 ∧
    (set_compression sampleDesc sampleConfig).bottommost_level = some 5 ∧
    (set_compression sampleDesc sampleConfig).compression_level = 3 :=
  ⟨(c6_set_compression_patches_descriptor sampleDesc sampleConfig).2.2.2.1 rfl,
    (c6_set_compression_patches_descriptor sampleDesc sampleConfig).2.2.2.2.2.2.2.2.1 rfl,
    (c6_set_compression_patches_descriptor sampleDesc sampleConfig).2.2.2.2.2.2.2.1⟩

/-- C8: the assembled block-based table options cache index and filter blocks
exactly when a cache handle is present, pin nothing at any tier, partition
filters, disable delta encoding, use two-level index search, use the
`BinaryAndHash` data-block index type iff the descriptor enables block-index
hashing (else `BinarySearch`), attach the provided block cache, and
explicitly disable the cache when none is provided. -/
theorem c8_block_table_options (desc : Descriptor) (cache : Option Nat) :
    (set_table_options desc cache).cache_index_and_filter_blocks = cache.isSome ∧
    (set_table_options desc cache).pin_top_level_index_and_filter = false ∧
    (set_table_options desc cache).pin_l0_filter_and_index_blocks_in_cache = false ∧
    (set_table_options desc cache).partition_pinning_tier = .None ∧
    (set_table_options desc cache).unpartitioned_pinning_tier = .None ∧
    (set_table_options desc cache).top_level_index_pinning_tier = .None ∧
    (set_table_options desc cache).partition_filters = true ∧
    (set_table_options desc cache).use_delta_encoding = false ∧
    (set_table_options desc cache).index_type = .TwoLevelIndexSearch ∧
    ((set_table_options desc cache).data_block_index_type = .BinaryAndHash ↔
      desc.block_index_hashing = true) ∧
    (set_table_options desc cache).block_size = desc.block_size ∧
    (set_table_options desc cache).metadata_block_size = desc.index_size ∧
    (∀ c, cache = some c →
      (set_table_options desc cache).block_cache = some c ∧
      (set_table_options desc cache).no_block_cache = false) ∧
    (cache = none → (set_table_options desc cache).no_block_cache = true) := by
  cases cache <;> by_cases h : desc.block_index_hashing <;>
    simp [set_table_options, table_options, BlockBasedOptions.default, h]

/-- C8 witness: the theorem applied with and without a concrete cache handle,
exercising the hypotheses of the cache-attachment conjuncts. -/
theorem c8_witness :
    (set_table_options sampleDesc (some 7)).block_cache = some 7 ∧
    (set_table_options sampleDesc (some 7)).no_block_cache = false ∧
    (set_table_options sampleDesc none).no_block_cache = true ∧
    (set_table_options sampleDesc (some 7)).cache_index_and_filter_blocks = true :=
  ⟨((c8_block_table_options sampleDesc (some 7)).2.2.2.2.2.2.2.2.2.2.2.2.1 7 rfl).1,
    ((c8_block_table_options sampleDesc (some 7)).2.2.2.2.2.2.2.2.2.2.2.2.1 7 rfl).2,
    (c8_block_table_options sampleDesc none).2.2.2.2.2.2.2.2.2.2.2.2.2 rfl,
    (c8_block_table_options sampleDesc (some 7)).1⟩

/-- C9: a dropped descriptor resolves to no cache handle at all, before any
capacity computation or registry access — the registry is neither read nor
written, whatever the cache disposition. -/
theorem c9_dropped_column_bypasses_cache_registry (config : Config)
    (reg : CacheRegistry) (desc : Descriptor) (h : desc.dropped = true) :
    get_cache config reg desc = .ok (none, reg) := by
  unfold get_cache
  rw [if_pos h]

/-- C9 witness: the theorem applied to a dropped `SharedWith` descriptor over
a nonempty registry — the named sibling is present, yet the result is no
cache and the registry is returned untouched. -/
theorem c9_witness :
    get_cache sampleConfig { caches := [("tokens", 4)], next_id := 5 }
      { sampleDesc with dropped := true, cache_disp := .SharedWith "tokens" } =
      .ok (none, { caches := [("tokens", 4)], next_id := 5 }) :=
  c9_dropped_column_bypasses_cache_registry sampleConfig
    { caches := [("tokens", 4)], next_id := 5 }
    { sampleDesc with dropped := true, cache_disp := .SharedWith "tokens" } rfl

/-- C4: cache disposition resolution — a `Unique` descriptor whose own
`cache_size` is zero gets no cache; `SharedWith(other)` reuses the cache
registered under `other` when present (leaving the registry untouched) and
otherwise creates a fresh cache registered under this column's own name;
consequently two descriptors declaring `SharedWith(x)` with `x` provisioned
earlier resolve, processed in order, to the same cache handle. -/
theorem c4_cache_disposition (config : Config) (reg : CacheRegistry) :
    (∀ (desc : Descriptor) (sz : Nat), desc.dropped = false →
      desc.cache_disp = CacheDisp.Unique → desc.cache_size = 0 →
      selected_cache_size config desc = .ok sz → desc.cache_shards ≠ 0 →
      get_cache config reg desc = .ok (none, reg)) ∧
    (∀ (desc : Descriptor) (sz : Nat) (other : String) (h : Nat),
      desc.dropped = false → desc.cache_disp = .SharedWith other →
      selected_cache_size config desc = .ok sz → desc.cache_shards ≠ 0 →
      reg.lookup other = some h →
      get_cache config reg desc = .ok (some h, reg)) ∧
    (∀ (desc : Descriptor) (sz : Nat) (other : String),
      desc.dropped = false → desc.cache_disp = .SharedWith other →
      selected_cache_size config desc = .ok sz → desc.cache_shards ≠ 0 →
      reg.lookup other = none →
      get_cache config reg desc = .ok (some reg.next_id,
        { caches := (desc.name, reg.next_id) :: reg.caches,
          next_id := reg.next_id + 1 })) ∧
    (∀ (d1 d2 : Descriptor) (sz1 sz2 : Nat) (x : String) (h : Nat),
      d1.dropped = false → d2.dropped = false →
      d1.cache_disp = .SharedWith x → d2.cache_disp = .SharedWith x →
      selected_cache_size config d1 = .ok sz1 →
      selected_cache_size config d2 = .ok sz2 →
      d1.cache_shards ≠ 0 → d2.cache_shards ≠ 0 →
      reg.lookup x = some h →
      get_cache config reg d1 = .ok (some h, reg) ∧
      get_cache config reg d2 = .ok (some h, reg)) := by
  refine ⟨?_, ?_, ?_, ?_⟩
  · intro desc sz hdrop hdisp hsz0 hsel hshard
    simp [get_cache, hdrop, hdisp, hsz0, hsel, hshard]
  · intro desc sz other h hdrop hdisp hsel hshard hlook
    simp [get_cache, hdrop, hdisp, hsel, hshard, hlook]
  · intro desc sz other hdrop hdisp hsel hshard hlook
    simp [get_cache, hdrop, hdisp, hsel, hshard, hlook]
  · intro d1 d2 sz1 sz2 x h hd1 hd2 hc1 hc2 hs1 hs2 hn1 hn2 hlook
    constructor
    · simp [get_cache, hd1, hc1, hs1, hn1, hlook]
    · simp [get_cache, hd2, hc2, hs2, hn2, hlook]

/-- C4 witness: the theorem applied over a registry where `"A"` is bound to
handle 9 — two distinct `SharedWith("A")` descriptors both resolve to
handle 9 without touching the registry; a `Unique` zero-size descriptor gets
no cache; an unbound `SharedWith("B")` descriptor creates handle 12 and
registers it under its own name. -/
theorem c4_witness :
    (get_cache sampleConfig { caches := [("A", 9)], next_id := 12 }
        { sampleDesc with name := "c1", cache_disp := .SharedWith "A" } =
      .ok (some 9, { caches := [("A", 9)], next_id := 12 }) ∧
      get_cache sampleConfig { caches := [("A", 9)], next_id := 12 }
        { sampleDesc with name := "c2", cache_disp := .SharedWith "A" } =
      .ok (some 9, { caches := [("A", 9)], next_id := 12 })) ∧
    get_cache sampleConfig { caches := [("A", 9)], next_id := 12 }
        { sampleDesc with name := "c3", cache_disp := .Unique, cache_size := 0 } =
      .ok (none, { caches := [("A", 9)], next_id := 12 }) ∧
    get_cache sampleConfig { caches := [("A", 9)], next_id := 12 }
        { sampleDesc with name := "c4", cache_disp := .SharedWith "B" } =
      .ok (some 12, { caches := [("c4", 12), ("A", 9)], next_id := 13 }) :=
  ⟨(c4_cache_disposition sampleConfig { caches := [("A", 9)], next_id := 12 }).2.2.2
      { sampleDesc with name := "c1", cache_disp := .SharedWith "A" }
      { sampleDesc with name := "c2", cache_disp := .SharedWith "A" }
      1024 1024 "A" 9 rfl rfl rfl rfl (by decide) (by decide)
      (by decide) (by decide) (by decide),
    (c4_cache_disposition sampleConfig { caches := [("A", 9)], next_id := 12 }).1
      { sampleDesc with name := "c3", cache_disp := .Unique, cache_size := 0 }
      0 rfl rfl rfl (by decide) (by decide),
    (c4_cache_disposition sampleConfig { caches := [("A", 9)], next_id := 12 }).2.2.1
      { sampleDesc with name := "c4", cache_disp := .SharedWith "B" }
      1024 "B" rfl rfl (by decide) (by decide) (by decide)⟩

/-- C5: the cache capacity is the config override exactly for the nine listed
column names — with `pduid_pdu` and `eventid_outlierpdu` sharing the single
pdu capacity — every other column using the descriptor's `cache_size`
unscaled; an override count scales to bytes as
`floor(count * cache_capacity_modifier) * (key_size_hint + val_size_hint)`,
with multiplication overflow fatal. (`f64` arithmetic is modelled as exact
rational arithmetic; the entity-size sum is `es` via the `ent_size`
hypothesis.) -/
theorem c5_capacity_selection_and_scaling (config : Config) (desc : Descriptor)
    (es : Nat) (hes : ent_size desc = .ok es) :
    es = desc.key_size_hint.getD 0 + desc.val_size_hint.getD 0 ∧
    (desc.name = "eventid_pduid" → selected_cache_size config desc =
      cache_size config config.eventid_pdu_cache_capacity es) ∧
    (desc.name = "eventid_shorteventid" → selected_cache_size config desc =
      cache_size config config.eventidshort_cache_capacity es) ∧
    (desc.name = "shorteventid_eventid" → selected_cache_size config desc =
      cache_size config config.shorteventid_cache_capacity es) ∧
    (desc.name = "shorteventid_authchain" → selected_cache_size config desc =
      cache_size config config.auth_chain_cache_capacity es) ∧
    (desc.name = "shortstatekey_statekey" → selected_cache_size config desc =
      cache_size config config.shortstatekey_cache_capacity es) ∧
    (desc.name = "statekey_shortstatekey" → selected_cache_size config desc =
      cache_size config config.statekeyshort_cache_capacity es) ∧
    (desc.name = "servernameevent_data" → selected_cache_size config desc =
      cache_size config config.servernameevent_data_cache_capacity es) ∧
    ((desc.name = "pduid_pdu" ∨ desc.name = "eventid_outlierpdu") →
      selected_cache_size config desc =
        cache_size config config.pdu_cache_capacity es) ∧
    (desc.name ∉ (["eventid_pduid", "eventid_shorteventid", "shorteventid_eventid",
        "shorteventid_authchain", "shortstatekey_statekey", "statekey_shortstatekey",
        "servernameevent_data", "pduid_pdu", "eventid_outlierpdu"] : List String) →
      selected_cache_size config desc = .ok desc.cache_size) ∧
    (∀ cap : Nat,
      ⌊(cap : Rat) * config.cache_capacity_modifier⌋.toNat ≤ USIZE_MAX →
      (⌊(cap : Rat) * config.cache_capacity_modifier⌋.toNat * es ≤ USIZE_MAX →
        cache_size config cap es =
          .ok (⌊(cap : Rat) * config.cache_capacity_modifier⌋.toNat * es)) ∧
      (USIZE_MAX < ⌊(cap : Rat) * config.cache_capacity_modifier⌋.toNat * es →
        cache_size config cap es = .error .cacheTooLarge)) := by
  refine ⟨?_, ?_, ?_, ?_, ?_, ?_, ?_, ?_, ?_, ?_, ?_⟩
  · unfold ent_size checkedAdd at hes
    split at hes
    · simp only [Except.ok.injEq] at hes
      exact hes.symm
    · cases hes
  · intro h; simp [selected_cache_size, hes, cap_override, h]
  · intro h; simp [selected_cache_size, hes, cap_override, h]
  · intro h; simp [selected_cache_size, hes, cap_override, h]
  · intro h; simp [selected_cache_size, hes, cap_override, h]
  · intro h; simp [selected_cache_size, hes, cap_override, h]
  · intro h; simp [selected_cache_size, hes, cap_override, h]
  · intro h; simp [selected_cache_size, hes, cap_override, h]
  · intro h; rcases h with h | h <;> simp [selected_cache_size, hes, cap_override, h]
  · intro h
    simp only [List.mem_cons, List.not_mem_nil, or_false, not_or] at h
    obtain ⟨h1, h2, h3, h4, h5, h6, h7, h8, h9⟩ := h
    simp [selected_cache_size, hes, cap_override, h1, h2, h3, h4, h5, h6, h7, h8, h9]
  · intro cap hfloor
    have hmin : f64AsUsize ((cap : Rat) * config.cache_capacity_modifier) =
        ⌊(cap : Rat) * config.cache_capacity_modifier⌋.toNat := by
      unfold f64AsUsize
      exact Nat.min_eq_left hfloor
    constructor
    · intro hle
      unfold cache_size cache_size_f64
      rw [if_pos (by rw [hmin]; exact hle), hmin]
    · intro hgt
      unfold cache_size cache_size_f64
      rw [if_neg (by rw [hmin]; omega)]

/-- C5 witness: the theorem applied to a `pduid_pdu` descriptor with size
hints 48 + 16 under the sample configuration (pdu capacity 150, modifier 1):
the selected size is the scaled override `150 * 64 = 9600` bytes. -/
theorem c5_witness :
    selected_cache_size sampleConfig { sampleDesc with name := "pduid_pdu" } =
      .ok 9600 := by
  have H := c5_capacity_selection_and_scaling sampleConfig
    { sampleDesc with name := "pduid_pdu" } 64 (by decide)
  have hfl : (⌊((150 : Nat) : Rat) * sampleConfig.cache_capacity_modifier⌋).toNat = 150 := by
    simp [sampleConfig]
  have h1 := H.2.2.2.2.2.2.2.2.1 (Or.inl rfl)
  have h2 := (H.2.2.2.2.2.2.2.2.2.2 150 (by rw [hfl]; decide)).1
    (by rw [hfl]; decide)
  rw [hfl] at h2
  calc selected_cache_size sampleConfig { sampleDesc with name := "pduid_pdu" }
      = cache_size sampleConfig sampleConfig.pdu_cache_capacity 64 := h1
    _ = cache_size sampleConfig 150 64 := rfl
    _ = .ok (150 * 64) := h2
    _ = .ok 9600 := by norm_num

end CfOpts

namespace Appservice

/-- C10: `unregister_appservice` returns `Ok` for every service name whose
underlying remove call succeeds — which includes names that were never
registered, since removal performs no existence check; an absent key leaves
the tree unchanged and still reports success. -/
theorem c10_unregister_no_existence_check (t : KvTree) (service_name : String) :
    (∃ t', unregister_appservice t service_name = .ok ((), t')) ∧
    (t.find? (fun p => p.1 == service_name) = none →
      unregister_appservice t service_name = .ok ((), t)) := by
  constructor
  · exact ⟨t.filter (fun p => p.1 != service_name), rfl⟩
  · intro h
    have hall := List.find?_eq_none.mp h
    unfold unregister_appservice KvTree.remove
    have hfil : t.filter (fun p => p.1 != service_name) = t := by
      apply List.filter_eq_self.mpr
      intro a ha
      have hne := hall a ha
      simpa using hne
    rw [hfil]

/-- C10 witness: the theorem applied to a tree that does not contain the
unregistered name — the call succeeds and leaves the tree unchanged. -/
theorem c10_witness :
    unregister_appservice [("bridge", "reg-yaml")] "unknown" =
      .ok ((), [("bridge", "reg-yaml")]) :=
  (c10_unregister_no_existence_check [("bridge", "reg-yaml")] "unknown").2 (by decide)

end Appservice

end Conduwuit
